import Mathlib

/-!
Shallow embedding of carlosb/object_pool (src/object_pool.hpp).

Modelling conventions:
* An object is identified by the raw slot pointer that holds it; the
  allocator is modelled as a counter (m_next_ptr) handing out fresh pointers,
  so allocator state swaps track the source's m_allocator swaps.
* std::stack is a list whose head is the stack top.
* Object values are not tracked: every property under study concerns counts,
  pointers and the handle's state machine, never the pointee's value.
* A call whose C++ original reads the top of an empty std::stack
  (undefined behavior) returns Option.none.
* Condition-variable waits are parameterised by the list of free-list
  contents observed at successive wake-ups; the empty list means no
  concurrent activity happens during the wait.
-/

namespace carlosb

/-- State of object_pool::impl: managed object count, slot capacity, the
stack of free constructed objects, the stack of allocated-but-unconstructed
slots, and the allocator (a fresh-pointer counter). -/
structure impl where
  m_managed_count : Nat
  m_capacity : Nat
  m_free_objects : List Nat
  m_allocated_space : List Nat
  m_next_ptr : Nat
deriving DecidableEq

/-- Runs n iterations of m_allocated_space.push(m_allocator.allocate(1)),
the loop body shared by impl(const Allocator&), reserve and reallocate. -/
def impl.alloc_push : Nat → impl → impl
  | 0, s => s
  | n + 1, s =>
      impl.alloc_push n
        { s with
          m_allocated_space := s.m_next_ptr :: s.m_allocated_space,
          m_next_ptr := s.m_next_ptr + 1 }

/-- impl(const Allocator&): managed_count 0, capacity 4, and four raw slots
pre-allocated onto m_allocated_space.  object_pool() delegates here with a
default allocator, so both front-end default constructors reach this state. -/
def impl.mkDefault : impl :=
  impl.alloc_push 4
    { m_managed_count := 0, m_capacity := 4, m_free_objects := [],
      m_allocated_space := [], m_next_ptr := 0 }

/-- Loop body shared by impl(count, value, alloc) and impl(count, alloc):
allocate a slot, placement-construct into it, push it onto m_free_objects;
n times. -/
def impl.construct_push : Nat → impl → impl
  | 0, s => s
  | n + 1, s =>
      impl.construct_push n
        { s with
          m_free_objects := s.m_next_ptr :: s.m_free_objects,
          m_next_ptr := s.m_next_ptr + 1 }

/-- impl(count, alloc): count default-constructed objects, capacity = count,
empty uninitialized stack. -/
def impl.mkCount (count : Nat) : impl :=
  impl.construct_push count
    { m_managed_count := count, m_capacity := count, m_free_objects := [],
      m_allocated_space := [], m_next_ptr := 0 }

/-- impl(count, value, alloc): count copies of value; same state shape as
impl(count, alloc) because object values are not tracked. -/
def impl.mkCountValue (count : Nat) (_value : Nat) : impl :=
  impl.construct_push count
    { m_managed_count := count, m_capacity := count, m_free_objects := [],
      m_allocated_space := [], m_next_ptr := 0 }

/-- impl::size(): number of free objects. -/
def impl.size (s : impl) : Nat := s.m_free_objects.length

/-- impl::capacity(). -/
def impl.capacity (s : impl) : Nat := s.m_capacity

/-- impl::managed_count(). -/
def impl.managed_count (s : impl) : Nat := s.m_managed_count

/-- impl::empty(). -/
def impl.empty (s : impl) : Bool := s.m_free_objects.isEmpty

/-- Unsigned 64-bit subtraction: size_type arithmetic wraps modulo 2^64.
Both operands stay below 2^64 in any execution of the source. -/
def usub64 (a b : Nat) : Nat := (a + 2 ^ 64 - b) % 2 ^ 64

/-- impl::in_use(): (m_managed_count - m_free_objects.size()) > 0 computed
in the unsigned size_type. -/
def impl.in_use (s : impl) : Bool :=
  decide (0 < usub64 s.m_managed_count s.m_free_objects.length)

/-- impl::operator bool(): size() > 0. -/
def impl.toBool (s : impl) : Bool := decide (0 < s.size)

/-- impl::reallocate(new_cap): allocate slots for indices m_capacity up to
new_cap, then set m_capacity = new_cap. -/
def impl.reallocate (new_cap : Nat) (s : impl) : impl :=
  { impl.alloc_push (new_cap - s.m_capacity) s with m_capacity := new_cap }

/-- impl::reserve(new_cap): grow only when new_cap exceeds the capacity. -/
def impl.reserve (new_cap : Nat) (s : impl) : impl :=
  if new_cap > s.m_capacity then
    { impl.alloc_push (new_cap - s.m_capacity) s with m_capacity := new_cap }
  else s

/-- impl::return_object(obj): push the pointer back onto m_free_objects and
notify one waiter (the notification has no state effect in this model). -/
def impl.return_object (obj : Nat) (s : impl) : impl :=
  { s with m_free_objects := obj :: s.m_free_objects }

/-- Acquisition handle object_pool::acquired_object: the raw pointer m_obj
(Option.none models nullptr), whether the shared_ptr m_pool is non-null, and
the m_is_initialized flag. -/
structure acquired_object where
  m_obj : Option Nat
  m_has_pool : Bool
  m_is_initialized : Bool
deriving DecidableEq

/-- acquired_object(), acquired_object(none_t) and acquired_object(nullptr_t):
the Empty ("none") handle.  (The source leaves m_obj indeterminate here; the
model uses the null pointer, which no code path ever reads.) -/
def acquired_object.mkNone : acquired_object :=
  { m_obj := Option.none, m_has_pool := false, m_is_initialized := false }

/-- acquired_object(obj, lender): the Owning handle bound to the pool. -/
def acquired_object.mkBound (p : Nat) : acquired_object :=
  { m_obj := some p, m_has_pool := true, m_is_initialized := true }

/-- Move constructor: returns (moved-to, moved-from source); the source is
left with a null m_obj, a moved-from (null) m_pool and m_is_initialized
false. -/
def acquired_object.moveFrom (other : acquired_object) : acquired_object × acquired_object :=
  ({ m_obj := other.m_obj, m_has_pool := other.m_has_pool,
     m_is_initialized := other.m_is_initialized },
   { m_obj := Option.none, m_has_pool := false, m_is_initialized := false })

/-- operator==(none_t). -/
def acquired_object.eq_none (h : acquired_object) : Bool := !h.m_is_initialized

/-- operator!=(none_t). -/
def acquired_object.ne_none (h : acquired_object) : Bool := !h.eq_none

/-- acquired_object::operator bool(). -/
def acquired_object.toBool (h : acquired_object) : Bool := h.m_is_initialized

/-- operator*(): throws std::logic_error on an uninitialized handle;
otherwise yields the owned object (identified by its slot pointer). -/
def acquired_object.op_star (h : acquired_object) : Except String Nat :=
  if !h.m_is_initialized then
    Except.error "acquired_object::operator*(): Initialization is required for data access."
  else
    match h.m_obj with
    | some p => Except.ok p
    | Option.none => Except.error "null pointer dereference"

/-- operator->(): throws std::logic_error on an uninitialized handle;
otherwise returns m_obj. -/
def acquired_object.op_arrow (h : acquired_object) : Except String Nat :=
  if !h.m_is_initialized then
    Except.error "acquired_object::operator->(): Initialization is required for data access."
  else
    match h.m_obj with
    | some p => Except.ok p
    | Option.none => Except.error "null pointer dereference"

/-- deleter::operator()(ptr): return the object to the pool when the pointer
is non-null and the weak_ptr to the pool still locks. -/
def deleter_run (has_pool : Bool) (ptr : Option Nat) (s : impl) : impl :=
  match ptr with
  | some p => if has_pool then impl.return_object p s else s
  | Option.none => s

/-- ~acquired_object(): run the deleter when the handle is initialized. -/
def acquired_object.drop (h : acquired_object) (s : impl) : impl :=
  if h.m_is_initialized then deleter_run h.m_has_pool h.m_obj s else s

/-- operator=(none_t): release the owned object to the pool when
initialized, then clear m_obj, m_pool and m_is_initialized. -/
def acquired_object.assign_none (h : acquired_object) (s : impl) : acquired_object × impl :=
  (acquired_object.mkNone, h.drop s)

/-- impl::acquire(): pop the top free object into a bound handle, or return
the none handle when the free list is empty. -/
def impl.acquire (s : impl) : acquired_object × impl :=
  match s.m_free_objects with
  | [] => (acquired_object.mkNone, s)
  | p :: rest => (acquired_object.mkBound p, { s with m_free_objects := rest })

/-- condition_variable::wait(lock, pred): re-check pred at each wake-up;
cur is the free-list content currently observed, wakes the contents at the
successive wake-ups.  Option.none means no wake ever satisfies pred: the
call blocks forever. -/
def cv_wait (pred : List Nat → Bool) : List Nat → List (List Nat) → Option (List Nat)
  | cur, [] => if pred cur then some cur else Option.none
  | cur, w :: ws => if pred cur then some cur else cv_wait pred w ws

/-- condition_variable::wait_for(lock, time, pred): as cv_wait, but when the
wake list is exhausted the deadline has passed and the call returns pred's
value at the current content.  Result: (what wait_for returned, the
free-list content when it returned). -/
def cv_wait_for (pred : List Nat → Bool) : List Nat → List (List Nat) → Bool × List Nat
  | cur, [] => (pred cur, cur)
  | cur, w :: ws => if pred cur then (true, cur) else cv_wait_for pred w ws

/-- impl::acquire_wait(time_limit).  time_limit is in milliseconds, 0 being
the "no limit" sentinel.  wakes lists the free-list contents at successive
condition-variable wake-ups caused by concurrent activity ([] = none).
Note the source passes the predicate m_free_objects.empty() — not its
negation — to wait_for in the positive-timeout branch. -/
def impl.acquire_wait (time_limit : Nat) (s : impl) (wakes : List (List Nat)) :
    Option (acquired_object × impl) :=
  if time_limit = 0 then
    match cv_wait (fun fo => !fo.isEmpty) s.m_free_objects wakes with
    | Option.none => Option.none
    | some cur =>
      match cur with
      | p :: rest => some (acquired_object.mkBound p, { s with m_free_objects := rest })
      | [] => some (acquired_object.mkNone, { s with m_free_objects := [] })
  else
    match cv_wait_for (fun fo => fo.isEmpty) s.m_free_objects wakes with
    | (true, cur) => some (acquired_object.mkNone, { s with m_free_objects := cur })
    | (false, cur) =>
      match cur with
      | p :: rest => some (acquired_object.mkBound p, { s with m_free_objects := rest })
      | [] => some (acquired_object.mkNone, { s with m_free_objects := [] })

/-- impl::allocate(args...): pop a free object if one exists; otherwise
allocate a fresh slot directly from the allocator, construct into it, and
increment m_managed_count — without touching m_capacity or the stacks. -/
def impl.allocate (s : impl) : acquired_object × impl :=
  match s.m_free_objects with
  | [] =>
      (acquired_object.mkBound s.m_next_ptr,
       { s with m_next_ptr := s.m_next_ptr + 1,
                m_managed_count := s.m_managed_count + 1 })
  | p :: rest => (acquired_object.mkBound p, { s with m_free_objects := rest })

/-- impl::push(value) (the copy and move overloads have the same state
effect): double the capacity when full, take the top uninitialized slot,
construct into it, push it free, increment m_managed_count.  Option.none
models top() on an empty std::stack (undefined behavior). -/
def impl.push (_value : Nat) (s : impl) : Option impl :=
  let s1 := if s.m_managed_count = s.m_capacity
            then impl.reallocate (s.m_capacity * 2) s else s
  match s1.m_allocated_space with
  | [] => Option.none
  | obj :: rest =>
      some { s1 with
             m_allocated_space := rest,
             m_free_objects := obj :: s1.m_free_objects,
             m_managed_count := s1.m_managed_count + 1 }

/-- impl::emplace(args...): same body as push with in-place construction. -/
def impl.emplace (_args : List Nat) (s : impl) : Option impl :=
  let s1 := if s.m_managed_count = s.m_capacity
            then impl.reallocate (s.m_capacity * 2) s else s
  match s1.m_allocated_space with
  | [] => Option.none
  | obj :: rest =>
      some { s1 with
             m_allocated_space := rest,
             m_free_objects := obj :: s1.m_free_objects,
             m_managed_count := s1.m_managed_count + 1 }

/-- Shrink loop of impl::resize: destruct the top free object and return its
slot to m_allocated_space, n times.  The [] branch is unreachable: the
source runs the loop size - count ≤ size times. -/
def impl.shrink_loop : Nat → impl → impl
  | 0, s => s
  | n + 1, s =>
    match s.m_free_objects with
    | [] => s
    | p :: rest =>
        impl.shrink_loop n
          { s with m_free_objects := rest,
                   m_allocated_space := p :: s.m_allocated_space }

/-- Grow loop of impl::resize: take the top slot of m_allocated_space,
construct into it, push it free; n times.  Option.none models top() on an
empty stack (undefined behavior). -/
def impl.grow_loop : Nat → impl → Option impl
  | 0, s => some s
  | n + 1, s =>
    match s.m_allocated_space with
    | [] => Option.none
    | slot :: rest =>
        impl.grow_loop n
          { s with m_allocated_space := rest,
                   m_free_objects := slot :: s.m_free_objects }

/-- impl::resize(count) (resize(count, value) has the same state effect):
grow or shrink the free-object count to count, then set m_managed_count to
count unconditionally. -/
def impl.resize (count : Nat) (s : impl) : Option impl :=
  let sz := s.m_free_objects.length
  if count > sz then
    let s1 := if count > s.m_capacity then impl.reallocate count s else s
    match impl.grow_loop (count - sz) s1 with
    | Option.none => Option.none
    | some s2 => some { s2 with m_managed_count := count }
  else
    some { impl.shrink_loop (sz - count) s with m_managed_count := count }

/-- impl::swap(other): swaps m_managed_count, m_capacity, m_free_objects and
m_allocator (modelled by m_next_ptr); m_allocated_space is not in the list
of swapped members. -/
def impl.swap (a b : impl) : impl × impl :=
  ({ a with m_managed_count := b.m_managed_count, m_capacity := b.m_capacity,
            m_free_objects := b.m_free_objects, m_next_ptr := b.m_next_ptr },
   { b with m_managed_count := a.m_managed_count, m_capacity := a.m_capacity,
            m_free_objects := a.m_free_objects, m_next_ptr := a.m_next_ptr })

/-- The documented pool invariant: 0 ≤ free ≤ managed ≤ capacity. -/
def impl.inv (s : impl) : Prop :=
  s.m_free_objects.length ≤ s.m_managed_count ∧ s.m_managed_count ≤ s.m_capacity

instance (s : impl) : Decidable s.inv :=
  inferInstanceAs (Decidable (_ ∧ _))

-- ------------------------------------------------------------------
-- Helper lemmas about the loops
-- ------------------------------------------------------------------

theorem alloc_push_managed (n : Nat) (s : impl) :
    (impl.alloc_push n s).m_managed_count = s.m_managed_count := by
  induction n generalizing s with
  | zero => rfl
  | succ n ih => simp [impl.alloc_push, ih]

theorem alloc_push_capacity (n : Nat) (s : impl) :
    (impl.alloc_push n s).m_capacity = s.m_capacity := by
  induction n generalizing s with
  | zero => rfl
  | succ n ih => simp [impl.alloc_push, ih]

theorem alloc_push_free (n : Nat) (s : impl) :
    (impl.alloc_push n s).m_free_objects = s.m_free_objects := by
  induction n generalizing s with
  | zero => rfl
  | succ n ih => simp [impl.alloc_push, ih]

theorem alloc_push_alloc_len (n : Nat) (s : impl) :
    (impl.alloc_push n s).m_allocated_space.length =
      n + s.m_allocated_space.length := by
  induction n generalizing s with
  | zero => simp [impl.alloc_push]
  | succ n ih => simp [impl.alloc_push, ih]; omega

theorem construct_push_managed (n : Nat) (s : impl) :
    (impl.construct_push n s).m_managed_count = s.m_managed_count := by
  induction n generalizing s with
  | zero => rfl
  | succ n ih => simp [impl.construct_push, ih]

theorem construct_push_capacity (n : Nat) (s : impl) :
    (impl.construct_push n s).m_capacity = s.m_capacity := by
  induction n generalizing s with
  | zero => rfl
  | succ n ih => simp [impl.construct_push, ih]

theorem construct_push_free_len (n : Nat) (s : impl) :
    (impl.construct_push n s).m_free_objects.length =
      n + s.m_free_objects.length := by
  induction n generalizing s with
  | zero => simp [impl.construct_push]
  | succ n ih => simp [impl.construct_push, ih]; omega

theorem shrink_loop_spec (n : Nat) (s : impl) (h : n ≤ s.m_free_objects.length) :
    impl.shrink_loop n s =
      { s with
        m_free_objects := s.m_free_objects.drop n,
        m_allocated_space := (s.m_free_objects.take n).reverse ++ s.m_allocated_space } := by
  induction n generalizing s with
  | zero => simp [impl.shrink_loop]
  | succ n ih =>
    match hf : s.m_free_objects with
    | [] => rw [hf] at h; simp at h
    | p :: rest =>
      rw [hf] at h
      have h2 : n ≤ rest.length := by simpa using h
      simp only [impl.shrink_loop, hf]
      rw [ih _ (by simpa using h2)]
      simp [hf, List.append_assoc]

theorem grow_loop_counts (n : Nat) (s s2 : impl)
    (h : impl.grow_loop n s = some s2) :
    s2.m_free_objects.length = n + s.m_free_objects.length ∧
    s2.m_managed_count = s.m_managed_count ∧
    s2.m_capacity = s.m_capacity := by
  induction n generalizing s with
  | zero =>
    simp only [impl.grow_loop] at h
    cases h
    exact ⟨by omega, rfl, rfl⟩
  | succ n ih =>
    match ha : s.m_allocated_space with
    | [] => simp [impl.grow_loop, ha] at h
    | slot :: rest =>
      simp only [impl.grow_loop, ha] at h
      obtain ⟨h1, h2, h3⟩ := ih _ h
      simp only [List.length_cons] at h1
      exact ⟨by omega, by rw [h2], by rw [h3]⟩

theorem reallocate_free (n : Nat) (s : impl) :
    (impl.reallocate n s).m_free_objects = s.m_free_objects := by
  simp [impl.reallocate, alloc_push_free]

theorem reallocate_managed (n : Nat) (s : impl) :
    (impl.reallocate n s).m_managed_count = s.m_managed_count := by
  simp [impl.reallocate, alloc_push_managed]

theorem reallocate_capacity (n : Nat) (s : impl) :
    (impl.reallocate n s).m_capacity = n := rfl

theorem reallocate_alloc_len (n : Nat) (s : impl) :
    (impl.reallocate n s).m_allocated_space.length =
      (n - s.m_capacity) + s.m_allocated_space.length := by
  simp [impl.reallocate, alloc_push_alloc_len]

-- ------------------------------------------------------------------
-- Claim theorems
-- ------------------------------------------------------------------

/-- C10: a default-constructed pool (impl(const Allocator&), reached by both
object_pool() and object_pool(alloc)) starts with size() == 0,
managed_count() == 0, empty() == true and capacity() == 4, and holds exactly
4 pre-allocated uninitialized raw slots. -/
theorem default_pool_spec :
    impl.mkDefault.size = 0 ∧
    impl.mkDefault.managed_count = 0 ∧
    impl.mkDefault.empty = true ∧
    impl.mkDefault.capacity = 4 ∧
    impl.mkDefault.m_allocated_space.length = 4 := by decide

/-- C9: impl::swap exchanges m_managed_count, m_capacity, m_free_objects and
the allocator, but not m_allocated_space: each pool keeps its own stack of
raw allocated-but-unconstructed slots. -/
theorem swap_spec (a b : impl) :
    (impl.swap a b).1.m_managed_count = b.m_managed_count ∧
    (impl.swap a b).1.m_capacity = b.m_capacity ∧
    (impl.swap a b).1.m_free_objects = b.m_free_objects ∧
    (impl.swap a b).1.m_next_ptr = b.m_next_ptr ∧
    (impl.swap a b).1.m_allocated_space = a.m_allocated_space ∧
    (impl.swap a b).2.m_managed_count = a.m_managed_count ∧
    (impl.swap a b).2.m_capacity = a.m_capacity ∧
    (impl.swap a b).2.m_free_objects = a.m_free_objects ∧
    (impl.swap a b).2.m_next_ptr = a.m_next_ptr ∧
    (impl.swap a b).2.m_allocated_space = b.m_allocated_space := by
  simp [impl.swap]

/-- C8: operator* and operator-> on any Empty handle (default-constructed /
"none" / nullptr, moved-from, or assigned the "none" sentinel) throw a
std::logic_error instead of silently returning a value; on an Owning handle
they succeed and yield the owned object. -/
theorem deref_spec :
    (acquired_object.mkNone.op_star =
       Except.error "acquired_object::operator*(): Initialization is required for data access." ∧
     acquired_object.mkNone.op_arrow =
       Except.error "acquired_object::operator->(): Initialization is required for data access.") ∧
    (∀ h : acquired_object,
       (h.moveFrom.2.op_star =
          Except.error "acquired_object::operator*(): Initialization is required for data access.") ∧
       (h.moveFrom.2.op_arrow =
          Except.error "acquired_object::operator->(): Initialization is required for data access.")) ∧
    (∀ (h : acquired_object) (s : impl),
       ((h.assign_none s).1.op_star =
          Except.error "acquired_object::operator*(): Initialization is required for data access.") ∧
       ((h.assign_none s).1.op_arrow =
          Except.error "acquired_object::operator->(): Initialization is required for data access.")) ∧
    (∀ p : Nat,
       (acquired_object.mkBound p).op_star = Except.ok p ∧
       (acquired_object.mkBound p).op_arrow = Except.ok p) := by
  refine ⟨⟨rfl, rfl⟩, fun h => ⟨?_, ?_⟩, fun h s => ⟨?_, ?_⟩, fun p => ⟨?_, ?_⟩⟩ <;>
    simp [acquired_object.moveFrom, acquired_object.assign_none,
          acquired_object.mkNone, acquired_object.mkBound,
          acquired_object.op_star, acquired_object.op_arrow]

/-- C1 (code-bug evidence): acquire_wait with a positive time limit passes
the predicate m_free_objects.empty() — not its negation — to wait_for.  On a
pool whose free list is empty the predicate holds at entry, so the call
returns the "none" handle immediately, even though an object (pointer 7
here) becomes free before the timeout; the claim requires that object to be
popped and returned in a bound handle, and "none" only at expiry. -/
theorem acquire_wait_inverted_predicate :
    impl.acquire_wait 50 impl.mkDefault [[7]] =
      some (acquired_object.mkNone, impl.mkDefault) ∧
    (impl.acquire_wait 50 impl.mkDefault [[7]]).map
        (fun r => r.1.eq_none) = some true := by decide

/-- C3: acquire() is total and non-blocking: on an empty free list it
returns the "none" handle and leaves the state unchanged; otherwise it pops
the top free object and returns a handle bound to the pool that compares
unequal to "none". -/
theorem acquire_spec (s : impl) :
    (s.m_free_objects = [] →
       impl.acquire s = (acquired_object.mkNone, s)) ∧
    (∀ p rest, s.m_free_objects = p :: rest →
       impl.acquire s =
         (acquired_object.mkBound p, { s with m_free_objects := rest }) ∧
       (impl.acquire s).1.eq_none = false ∧
       (impl.acquire s).1.m_has_pool = true) := by
  constructor
  · intro h
    simp [impl.acquire, h]
  · intro p rest h
    refine ⟨?_, ?_, ?_⟩ <;>
      simp [impl.acquire, h, acquired_object.eq_none, acquired_object.mkBound]

/-- Witness for C3 at a pool built with one element. -/
theorem acquire_spec_witness :
    impl.acquire (impl.mkCount 1) =
      (acquired_object.mkBound 0, { impl.mkCount 1 with m_free_objects := [] }) ∧
    (impl.acquire (impl.mkCount 1)).1.eq_none = false ∧
    (impl.acquire (impl.mkCount 1)).1.m_has_pool = true :=
  (acquire_spec (impl.mkCount 1)).2 0 [] (by decide)

/-- C4: allocate never returns the "none" handle; with a non-empty free list
it behaves exactly like acquire (pops the top free object, leaving
managed_count, capacity and the slot stack alone); with an empty free list
it constructs a brand-new object in a slot taken directly from the
allocator, increments m_managed_count by one and leaves m_capacity, the
free list and the slot stack unchanged. -/
theorem allocate_spec (s : impl) :
    ((impl.allocate s).1.eq_none = false) ∧
    (∀ p rest, s.m_free_objects = p :: rest →
       impl.allocate s =
         (acquired_object.mkBound p, { s with m_free_objects := rest })) ∧
    (s.m_free_objects = [] →
       (impl.allocate s).1 = acquired_object.mkBound s.m_next_ptr ∧
       (impl.allocate s).2.m_managed_count = s.m_managed_count + 1 ∧
       (impl.allocate s).2.m_capacity = s.m_capacity ∧
       (impl.allocate s).2.m_free_objects = s.m_free_objects ∧
       (impl.allocate s).2.m_allocated_space = s.m_allocated_space) := by
  refine ⟨?_, ?_, ?_⟩
  · match hf : s.m_free_objects with
    | [] => simp [impl.allocate, hf, acquired_object.eq_none, acquired_object.mkBound]
    | p :: rest => simp [impl.allocate, hf, acquired_object.eq_none, acquired_object.mkBound]
  · intro p rest h
    simp [impl.allocate, h]
  · intro h
    refine ⟨?_, ?_, ?_, ?_, ?_⟩ <;> simp [impl.allocate, h]

/-- Witness for C4 on the empty pool impl(0, alloc). -/
theorem allocate_spec_witness :
    ((impl.allocate (impl.mkCount 0)).1.eq_none = false) ∧
    ((impl.allocate (impl.mkCount 0)).1 =
       acquired_object.mkBound (impl.mkCount 0).m_next_ptr ∧
     (impl.allocate (impl.mkCount 0)).2.m_managed_count =
       (impl.mkCount 0).m_managed_count + 1 ∧
     (impl.allocate (impl.mkCount 0)).2.m_capacity = (impl.mkCount 0).m_capacity ∧
     (impl.allocate (impl.mkCount 0)).2.m_free_objects =
       (impl.mkCount 0).m_free_objects ∧
     (impl.allocate (impl.mkCount 0)).2.m_allocated_space =
       (impl.mkCount 0).m_allocated_space) :=
  ⟨(allocate_spec (impl.mkCount 0)).1,
   (allocate_spec (impl.mkCount 0)).2.2 (by decide)⟩

/-- C7: with a non-empty free list, acquiring an object and then dropping
the returned handle restores the pool to its exact pre-acquire state; in
particular size() is restored and in_use() returns to false when it was
false before. -/
theorem roundtrip_spec (s : impl) (h : s.m_free_objects ≠ []) :
    ((impl.acquire s).1.drop (impl.acquire s).2) = s ∧
    ((impl.acquire s).1.drop (impl.acquire s).2).size = s.size ∧
    (s.in_use = false →
       ((impl.acquire s).1.drop (impl.acquire s).2).in_use = false) := by
  match hf : s.m_free_objects with
  | [] => exact absurd hf h
  | p :: rest =>
    have hacq : impl.acquire s =
        (acquired_object.mkBound p, { s with m_free_objects := rest }) := by
      simp [impl.acquire, hf]
    have hstate : ((impl.acquire s).1.drop (impl.acquire s).2) = s := by
      rw [hacq]
      simp only [acquired_object.drop, acquired_object.mkBound, deleter_run,
                 impl.return_object, if_pos]
      rw [← hf]
    exact ⟨hstate, by rw [hstate], fun hu => by rw [hstate]; exact hu⟩

/-- Witness for C7, the §8 scenario: pool built with count 3 and a value;
size()==3, capacity()==3, in_use()==false; after one acquire size()==2 and
in_use()==true; dropping the handle restores size()==3, in_use()==false. -/
theorem roundtrip_spec_witness :
    (impl.mkCountValue 3 7).size = 3 ∧
    (impl.mkCountValue 3 7).capacity = 3 ∧
    (impl.mkCountValue 3 7).in_use = false ∧
    (impl.acquire (impl.mkCountValue 3 7)).2.size = 2 ∧
    (impl.acquire (impl.mkCountValue 3 7)).2.in_use = true ∧
    ((impl.acquire (impl.mkCountValue 3 7)).1.drop
        (impl.acquire (impl.mkCountValue 3 7)).2).size =
      (impl.mkCountValue 3 7).size ∧
    ((impl.mkCountValue 3 7).in_use = false →
       ((impl.acquire (impl.mkCountValue 3 7)).1.drop
           (impl.acquire (impl.mkCountValue 3 7)).2).in_use = false) := by
  refine ⟨by decide, by decide, by decide, by decide, by decide, ?_, ?_⟩
  · exact (roundtrip_spec (impl.mkCountValue 3 7) (by decide)).2.1
  · exact (roundtrip_spec (impl.mkCountValue 3 7) (by decide)).2.2

/-- C6: when the free-object count exceeds count, resize(count) destructs
exactly size - count free objects from the top of the free stack, returns
their slots to the uninitialized stack, leaves size() == count and sets
m_managed_count to count unconditionally. -/
theorem resize_shrink_spec (count : Nat) (s : impl)
    (h : count < s.m_free_objects.length) :
    impl.resize count s =
      some { s with
             m_free_objects :=
               s.m_free_objects.drop (s.m_free_objects.length - count),
             m_allocated_space :=
               (s.m_free_objects.take (s.m_free_objects.length - count)).reverse
                 ++ s.m_allocated_space,
             m_managed_count := count } ∧
    (∀ s2, impl.resize count s = some s2 →
       s2.size = count ∧ s2.m_managed_count = count) := by
  have hle : ¬ count > s.m_free_objects.length := by omega
  have hmain : impl.resize count s =
      some { s with
             m_free_objects :=
               s.m_free_objects.drop (s.m_free_objects.length - count),
             m_allocated_space :=
               (s.m_free_objects.take (s.m_free_objects.length - count)).reverse
                 ++ s.m_allocated_space,
             m_managed_count := count } := by
    simp only [impl.resize, hle, if_neg, if_false]
    rw [shrink_loop_spec _ _ (by omega)]
  refine ⟨hmain, fun s2 h2 => ?_⟩
  rw [hmain] at h2
  injection h2 with h3
  subst h3
  constructor
  · simp only [impl.size, List.length_drop]
    omega
  · rfl

/-- Witness for C6, the §8 scenario: resize(2) on a pool with 5 free objects
destructs exactly 3 of them (their slots return to the uninitialized stack)
and leaves size() == 2, managed_count == 2. -/
theorem resize_shrink_spec_witness :
    2 < (impl.mkCount 5).m_free_objects.length ∧
    impl.resize 2 (impl.mkCount 5) =
      some { impl.mkCount 5 with
             m_free_objects :=
               (impl.mkCount 5).m_free_objects.drop
                 ((impl.mkCount 5).m_free_objects.length - 2),
             m_allocated_space :=
               ((impl.mkCount 5).m_free_objects.take
                   ((impl.mkCount 5).m_free_objects.length - 2)).reverse
                 ++ (impl.mkCount 5).m_allocated_space,
             m_managed_count := 2 } ∧
    (impl.resize 2 (impl.mkCount 5)).map impl.size = some 2 :=
  ⟨by decide,
   (resize_shrink_spec 2 (impl.mkCount 5) (by decide)).1,
   by decide⟩

/-- C5 counterexample: the pool impl(0, alloc) is a reachable state with
managed_count == capacity (both 0), yet push does not double capacity and
add an object there: reallocate(0) allocates nothing and push then reads
the top of the empty uninitialized stack — undefined behavior, modelled as
Option.none. -/
theorem push_zero_capacity_fails :
    (impl.mkCount 0).m_managed_count = (impl.mkCount 0).m_capacity ∧
    impl.push 7 (impl.mkCount 0) = Option.none := by decide

/-- C5 amended: for every pool state with managed_count == capacity and
capacity > 0, push first doubles capacity (reallocate(capacity * 2)), then
takes the top slot of the (post-doubling) uninitialized stack, constructs
into it, pushes it onto the free list and increments managed_count by one;
emplace performs the identical state transition. -/
theorem push_full_doubles (v : Nat) (s : impl)
    (h : s.m_managed_count = s.m_capacity) (hpos : 0 < s.m_capacity) :
    ∃ slot rest,
      (impl.reallocate (s.m_capacity * 2) s).m_allocated_space = slot :: rest ∧
      impl.push v s =
        some { impl.reallocate (s.m_capacity * 2) s with
               m_allocated_space := rest,
               m_free_objects := slot :: s.m_free_objects,
               m_managed_count := s.m_managed_count + 1 } ∧
      (impl.push v s).map impl.capacity = some (2 * s.m_capacity) ∧
      (impl.push v s).map impl.size = some (s.size + 1) ∧
      (impl.push v s).map impl.managed_count = some (s.m_managed_count + 1) ∧
      impl.emplace [] s = impl.push v s := by
  have hlen : (impl.reallocate (s.m_capacity * 2) s).m_allocated_space.length =
      s.m_capacity + s.m_allocated_space.length := by
    rw [reallocate_alloc_len]
    omega
  match ha : (impl.reallocate (s.m_capacity * 2) s).m_allocated_space with
  | [] =>
    rw [ha] at hlen
    simp at hlen
    omega
  | slot :: rest =>
    have hpush : impl.push v s =
        some { impl.reallocate (s.m_capacity * 2) s with
               m_allocated_space := rest,
               m_free_objects := slot :: s.m_free_objects,
               m_managed_count := s.m_managed_count + 1 } := by
      simp only [impl.push, if_pos h, ha]
      rw [reallocate_free, reallocate_managed]
    refine ⟨slot, rest, rfl, hpush, ?_, ?_, ?_, rfl⟩
    · rw [hpush]
      simp [impl.capacity, reallocate_capacity, Nat.mul_comm]
    · rw [hpush]
      simp [impl.size]
    · rw [hpush]
      simp [impl.managed_count]

/-- Witness for C5's amended claim at the §8 growth scenario: capacity 4,
managed_count 4 (all free); the fifth push doubles capacity to 8 and leaves
size() == 5. -/
theorem push_full_doubles_witness :
    (impl.mkCount 4).m_managed_count = (impl.mkCount 4).m_capacity ∧
    0 < (impl.mkCount 4).m_capacity ∧
    (∃ slot rest,
      (impl.reallocate ((impl.mkCount 4).m_capacity * 2)
          (impl.mkCount 4)).m_allocated_space = slot :: rest ∧
      impl.push 9 (impl.mkCount 4) =
        some { impl.reallocate ((impl.mkCount 4).m_capacity * 2) (impl.mkCount 4) with
               m_allocated_space := rest,
               m_free_objects := slot :: (impl.mkCount 4).m_free_objects,
               m_managed_count := (impl.mkCount 4).m_managed_count + 1 } ∧
      (impl.push 9 (impl.mkCount 4)).map impl.capacity =
        some (2 * (impl.mkCount 4).m_capacity) ∧
      (impl.push 9 (impl.mkCount 4)).map impl.size =
        some ((impl.mkCount 4).size + 1) ∧
      (impl.push 9 (impl.mkCount 4)).map impl.managed_count =
        some ((impl.mkCount 4).m_managed_count + 1) ∧
      impl.emplace [] (impl.mkCount 4) = impl.push 9 (impl.mkCount 4)) ∧
    (impl.push 9 (impl.mkCount 4)).map impl.capacity = some 8 ∧
    (impl.push 9 (impl.mkCount 4)).map impl.size = some 5 :=
  ⟨by decide, by decide,
   push_full_doubles 9 (impl.mkCount 4) (by decide) (by decide),
   by decide, by decide⟩

-- ------------------------------------------------------------------
-- Invariant preservation (C2)
-- ------------------------------------------------------------------

theorem acquire_preserves_inv (s : impl) (hinv : s.inv) :
    (impl.acquire s).2.inv := by
  obtain ⟨h1, h2⟩ := hinv
  match hf : s.m_free_objects with
  | [] =>
    simp only [impl.acquire, hf]
    exact ⟨h1, h2⟩
  | p :: rest =>
    simp only [impl.acquire, hf]
    rw [hf] at h1
    simp only [List.length_cons] at h1
    exact ⟨by simpa using Nat.le_of_succ_le h1, h2⟩

theorem push_preserves_inv (v : Nat) (s s2 : impl)
    (hinv : s.inv) (hcap : 0 < s.m_capacity)
    (hp : impl.push v s = some s2) : s2.inv := by
  obtain ⟨h1, h2⟩ := hinv
  by_cases hm : s.m_managed_count = s.m_capacity
  · simp only [impl.push, if_pos hm] at hp
    match ha : (impl.reallocate (s.m_capacity * 2) s).m_allocated_space with
    | [] =>
      rw [ha] at hp
      simp at hp
    | obj :: rest =>
      rw [ha] at hp
      simp only [Option.some.injEq] at hp
      subst hp
      constructor
      · simp only [List.length_cons, reallocate_free, reallocate_managed]
        omega
      · simp only [reallocate_managed, reallocate_capacity]
        omega
  · simp only [impl.push, if_neg hm] at hp
    match ha : s.m_allocated_space with
    | [] =>
      rw [ha] at hp
      simp at hp
    | obj :: rest =>
      rw [ha] at hp
      simp only [Option.some.injEq] at hp
      subst hp
      exact ⟨by simp only [List.length_cons]; omega,
             by simp only []; omega⟩

theorem resize_preserves_inv (n : Nat) (s s2 : impl)
    (hinv : s.inv) (hr : impl.resize n s = some s2) : s2.inv := by
  obtain ⟨h1, h2⟩ := hinv
  by_cases hgt : n > s.m_free_objects.length
  · simp only [impl.resize, if_pos hgt] at hr
    by_cases hc : n > s.m_capacity
    · simp only [if_pos hc] at hr
      match hg : impl.grow_loop (n - s.m_free_objects.length)
          (impl.reallocate n s) with
      | Option.none =>
        rw [hg] at hr
        simp at hr
      | some s3 =>
        rw [hg] at hr
        simp only [Option.some.injEq] at hr
        subst hr
        obtain ⟨g1, g2, g3⟩ := grow_loop_counts _ _ _ hg
        rw [reallocate_free] at g1
        rw [reallocate_capacity] at g3
        exact ⟨by simp only []; omega, by simp only []; omega⟩
    · simp only [if_neg hc] at hr
      match hg : impl.grow_loop (n - s.m_free_objects.length) s with
      | Option.none =>
        rw [hg] at hr
        simp at hr
      | some s3 =>
        rw [hg] at hr
        simp only [Option.some.injEq] at hr
        subst hr
        obtain ⟨g1, g2, g3⟩ := grow_loop_counts _ _ _ hg
        exact ⟨by simp only []; omega, by simp only []; omega⟩
  · simp only [impl.resize, if_neg hgt] at hr
    simp only [Option.some.injEq] at hr
    subst hr
    rw [shrink_loop_spec _ _ (by omega)]
    constructor
    · simp only [List.length_drop]
      omega
    · simp only []
      omega

theorem reserve_preserves_inv (n : Nat) (s : impl) (hinv : s.inv) :
    (impl.reserve n s).inv := by
  obtain ⟨h1, h2⟩ := hinv
  by_cases hgt : n > s.m_capacity
  · simp only [impl.reserve, if_pos hgt]
    constructor
    · simp only [alloc_push_free, alloc_push_managed]
      exact h1
    · simp only [alloc_push_managed]
      omega
  · simp only [impl.reserve, if_neg hgt]
    exact ⟨h1, h2⟩

theorem acquire_wait_seq_preserves_inv (t : Nat) (s : impl)
    (r : acquired_object × impl) (hinv : s.inv)
    (hr : impl.acquire_wait t s [] = some r) : r.2.inv := by
  obtain ⟨h1, h2⟩ := hinv
  by_cases ht : t = 0
  · subst ht
    match hf : s.m_free_objects with
    | [] =>
      simp [impl.acquire_wait, cv_wait, hf] at hr
    | p :: rest =>
      simp only [impl.acquire_wait, cv_wait, hf, List.isEmpty_cons,
                 Bool.not_false, if_pos, if_true, Option.some.injEq,
                 reduceIte] at hr
      subst hr
      rw [hf] at h1
      simp only [List.length_cons] at h1
      exact ⟨by simp only []; omega, h2⟩
  · match hf : s.m_free_objects with
    | [] =>
      simp only [impl.acquire_wait, cv_wait_for, hf, if_neg ht,
                 List.isEmpty_nil, Option.some.injEq, reduceIte] at hr
      subst hr
      exact ⟨by simp only [List.length_nil]; omega, h2⟩
    | p :: rest =>
      simp only [impl.acquire_wait, cv_wait_for, hf, if_neg ht,
                 List.isEmpty_cons, Option.some.injEq, reduceIte] at hr
      subst hr
      rw [hf] at h1
      simp only [List.length_cons] at h1
      exact ⟨by simp only []; omega, h2⟩

theorem return_object_preserves_inv (p : Nat) (s : impl) (hinv : s.inv)
    (hlent : s.m_free_objects.length < s.m_managed_count) :
    (impl.return_object p s).inv := by
  obtain ⟨h1, h2⟩ := hinv
  exact ⟨by simp only [impl.return_object, List.length_cons]; omega, h2⟩

theorem allocate_preserves_free_le_managed (s : impl) (hinv : s.inv) :
    (impl.allocate s).2.m_free_objects.length ≤
      (impl.allocate s).2.m_managed_count := by
  obtain ⟨h1, h2⟩ := hinv
  match hf : s.m_free_objects with
  | [] =>
    simp only [impl.allocate, hf, List.length_nil]
    omega
  | p :: rest =>
    simp only [impl.allocate, hf]
    rw [hf] at h1
    simp only [List.length_cons] at h1
    omega

/-- C2 counterexample: from the reachable pool impl(1, value), acquiring the
single object and then calling allocate yields a state with
managed_count == 2 but capacity == 1, so the claimed invariant
free ≤ managed ≤ capacity is violated by an operation. -/
theorem allocate_violates_invariant :
    (impl.allocate ((impl.acquire (impl.mkCountValue 1 5)).2)).2.m_capacity <
      (impl.allocate ((impl.acquire (impl.mkCountValue 1 5)).2)).2.m_managed_count := by
  decide

/-- C2 amended: every constructor establishes
0 ≤ free ≤ managed_count ≤ capacity; acquire, acquire_wait (absent
concurrent activity), resize and reserve preserve it; push and emplace
preserve it when capacity > 0; return_object preserves it while at least
one object is lent; allocate always preserves free ≤ managed_count, but its
empty-free-list path increments managed_count without touching capacity and
can make managed_count exceed capacity. -/
theorem invariant_preservation :
    impl.mkDefault.inv ∧
    (∀ n : Nat, (impl.mkCount n).inv) ∧
    (∀ n v : Nat, (impl.mkCountValue n v).inv) ∧
    (∀ s : impl, s.inv → (impl.acquire s).2.inv) ∧
    (∀ (t : Nat) (s : impl) (r : acquired_object × impl),
       s.inv → impl.acquire_wait t s [] = some r → r.2.inv) ∧
    (∀ (v : Nat) (s s2 : impl),
       s.inv → 0 < s.m_capacity → impl.push v s = some s2 → s2.inv) ∧
    (∀ (a : List Nat) (s s2 : impl),
       s.inv → 0 < s.m_capacity → impl.emplace a s = some s2 → s2.inv) ∧
    (∀ (n : Nat) (s s2 : impl), s.inv → impl.resize n s = some s2 → s2.inv) ∧
    (∀ (n : Nat) (s : impl), s.inv → (impl.reserve n s).inv) ∧
    (∀ (p : Nat) (s : impl),
       s.inv → s.m_free_objects.length < s.m_managed_count →
       (impl.return_object p s).inv) ∧
    (∀ s : impl, s.inv →
       (impl.allocate s).2.m_free_objects.length ≤
         (impl.allocate s).2.m_managed_count) := by
  refine ⟨by decide, ?_, ?_, acquire_preserves_inv,
          fun t s r hinv hr => acquire_wait_seq_preserves_inv t s r hinv hr,
          push_preserves_inv,
          fun a s s2 hinv hcap hp => push_preserves_inv 0 s s2 hinv hcap hp,
          resize_preserves_inv, reserve_preserves_inv,
          return_object_preserves_inv, allocate_preserves_free_le_managed⟩
  · intro n
    constructor
    · simp [impl.mkCount, construct_push_free_len, construct_push_managed]
    · simp [impl.mkCount, construct_push_managed, construct_push_capacity]
  · intro n v
    constructor
    · simp [impl.mkCountValue, construct_push_free_len, construct_push_managed]
    · simp [impl.mkCountValue, construct_push_managed, construct_push_capacity]

/-- Witness for C2's amended theorem: every clause exercised on concrete
pools. -/
theorem invariant_preservation_witness :
    impl.mkDefault.inv ∧
    (impl.mkCount 3).inv ∧
    (impl.mkCountValue 3 7).inv ∧
    (impl.acquire (impl.mkCount 2)).2.inv ∧
    (impl.mk 2 2 [0] [] 2).inv ∧
    (impl.mk 3 4 [3, 1, 0] [2] 4).inv ∧
    (impl.mk 3 4 [3, 1, 0] [2] 4).inv ∧
    (impl.mk 2 5 [1, 0] [2, 3, 4] 5).inv ∧
    (impl.reserve 7 (impl.mkCount 2)).inv ∧
    (impl.return_object 9 (impl.acquire (impl.mkCount 2)).2).inv ∧
    (impl.allocate (impl.mkCount 0)).2.m_free_objects.length ≤
      (impl.allocate (impl.mkCount 0)).2.m_managed_count := by
  obtain ⟨c1, c2, c3, c4, c5, c6, c7, c8, c9, c10, c11⟩ := invariant_preservation
  refine ⟨c1, c2 3, c3 3 7, c4 (impl.mkCount 2) (by decide), ?_, ?_, ?_, ?_,
          c9 7 (impl.mkCount 2) (by decide),
          c10 9 (impl.acquire (impl.mkCount 2)).2 (by decide) (by decide),
          c11 (impl.mkCount 0) (by decide)⟩
  · exact c5 5 (impl.mkCount 2) (acquired_object.mkBound 1, impl.mk 2 2 [0] [] 2)
      (by decide) (by decide)
  · exact c6 0 (impl.mkCount 2) (impl.mk 3 4 [3, 1, 0] [2] 4)
      (by decide) (by decide) (by decide)
  · exact c7 [] (impl.mkCount 2) (impl.mk 3 4 [3, 1, 0] [2] 4)
      (by decide) (by decide) (by decide)
  · exact c8 2 (impl.mkCount 5) (impl.mk 2 5 [1, 0] [2, 3, 4] 5)
      (by decide) (by decide)

end carlosb
